import Mathlib

/-!
Verification development for a Vietnamese-equities question-answering
service.  The Python source consists of a tool layer (`app/tools.py`),
an agent configuration (`app/agent.py`), prompt chains (`app/chains.py`)
and a request orchestrator (`app/main.py`).  This file shallowly embeds
the data model and the operations of those modules and proves the
behavioural properties claimed of them.

Modelling conventions:
  * a pandas `DataFrame` is an ordered association list of columns,
    each column an ordered list of optional rationals (`none` = NaN);
  * the market-data provider (`vnstock.Quote.history`,
    `vnstock.Company.*`) is an oracle `String → FetchR` recording, per
    symbol, whether the call raised, returned `None`, or returned a
    frame;
  * Python `dict` assignment is `dictInsert` (update-in-place if the
    key is present, append otherwise; iteration in insertion order);
  * each tool `_run` returns its output paired with the trace of
    symbols for which a provider fetch was issued.
-/

/-- A column of a pandas DataFrame: ordered cells, `none` meaning NaN. -/
abbrev Col := List (Option ℚ)

/-- A pandas DataFrame as an ordered association list of named columns. -/
abbrev DataFrame := List (String × Col)

namespace DataFrame

/-- `df.columns` in pandas: column names in order. -/
def columns (df : DataFrame) : List String := df.map Prod.fst

/-- `df[c]`: the cells of the column named `c` (empty if absent; a
pandas frame holds each label once). -/
def getCol : DataFrame → String → Col
  | [], _ => []
  | p :: df, c => if p.1 = c then p.2 else getCol df c

/-- Number of rows: length of the first column (0 for a frame with no
columns), matching a rectangular pandas frame. -/
def nRows (df : DataFrame) : Nat :=
  match df with
  | [] => 0
  | c :: _ => c.2.length

/-- `df.empty`: true when the frame has no columns or no rows. -/
def isEmpty (df : DataFrame) : Bool :=
  df.columns = [] || df.nRows = 0

/-- `df[name] = col`: replace the column in place when the name exists
(a pandas frame holds each label once), append it at the end
otherwise. -/
def setCol : DataFrame → String → Col → DataFrame
  | [], name, c => [(name, c)]
  | p :: df, name, c =>
    if p.1 = name then (name, c) :: df else p :: setCol df name c

/-- A frame is rectangular with `n` rows. -/
def wf (df : DataFrame) (n : Nat) : Prop :=
  ∀ p ∈ df, (Prod.snd p).length = n

end DataFrame

/-- One cell of a JSON record produced by `to_json(orient='records')`,
possibly later overwritten by a string (the orchestrator stamps the
symbol onto each row). -/
inductive CellVal where
  | num (q : ℚ)
  | str (s : String)
  | null
deriving DecidableEq, Repr

/-- A JSON record: ordered fields. -/
abbrev Rec := List (String × CellVal)

/-- Cell of an optional rational. -/
def cellOf : Option ℚ → CellVal
  | some q => .num q
  | none => .null

/-- `df.to_json(orient='records')`: one record per row, fields in column
order; NaN serialises to null. -/
def toRecords (df : DataFrame) : List Rec :=
  (List.range df.nRows).map (fun i =>
    df.map (fun p => (p.1, cellOf (p.2.getD i none))))

/-- Outcome of one provider call for one symbol: an exception carrying
its message, a `None` result, or a returned frame. -/
inductive FetchR where
  | exn (e : String)
  | nores
  | df (d : DataFrame)
deriving DecidableEq, Repr

/-- Per-symbol value in a tool's result dict: a JSON-encoded record
list, a plain integer, or a per-symbol error message. -/
inductive SymResult where
  | records (rs : List Rec)
  | intVal (n : Int)
  | err (msg : String)
deriving DecidableEq, Repr

/-- A tool `_run` either returns one global message (structural
rejection: the Python code returns a bare string) or the per-symbol
result dict. -/
inductive ToolOutput where
  | globalMsg (s : String)
  | mapping (m : List (String × SymResult))
deriving DecidableEq, Repr

/-- Python `dict` assignment `m[k] = v`: overwrite in place when the key
exists (a dict holds each key once, so replacing the first occurrence is
the dict semantics), append otherwise. -/
def dictInsert : List (String × SymResult) → String → SymResult →
    List (String × SymResult)
  | [], k, v => [(k, v)]
  | p :: m, k, v => if p.1 = k then (k, v) :: m else p :: dictInsert m k v

/-- Keys of a result dict, in insertion order. -/
def dictKeys (m : List (String × SymResult)) : List String := m.map Prod.fst

/-- `m.get(k)` on a result dict. -/
def alistLookup : List (String × SymResult) → String → Option SymResult
  | [], _ => none
  | p :: m, k => if p.1 = k then some p.2 else alistLookup m k

/-- The symbol loop shared by every tool: `results = {}` followed by
`results[symbol] = f(symbol)` for each symbol in order. -/
def runMap (f : String → SymResult) (symbols : List String) :
    List (String × SymResult) :=
  symbols.foldl (fun res s => dictInsert res s (f s)) []

/-- First-occurrence deduplication (the key order a Python dict ends up
with after inserting `symbols` in order). -/
def firstDedupFrom (seen : List String) : List String → List String
  | [] => []
  | x :: xs => if x ∈ seen then firstDedupFrom seen xs
               else x :: firstDedupFrom (x :: seen) xs

def firstDedup (l : List String) : List String := firstDedupFrom [] l

/-- Base-10 digits of `n`, least significant first, by structural
recursion on a fuel bound (`fuel ≥ n` is enough). -/
def digitsAux : Nat → Nat → List Nat
  | _, 0 => []
  | 0, _ + 1 => []
  | fuel + 1, n + 1 => (n + 1) % 10 :: digitsAux fuel ((n + 1) / 10)

/-- Python `str(n)` for a natural number: standard decimal rendering
(most significant digit first). -/
def natStr (n : Nat) : String :=
  if n = 0 then "0" else ⟨((digitsAux n n).map Nat.digitChar).reverse⟩

/-- Python `str(p)` for an integer: decimal rendering with a leading
minus sign on negatives (mirrors the structure of `int.__str__`). -/
def intStr : Int → String
  | Int.ofNat m => natStr m
  | Int.negSucc m => "-" ++ natStr (m + 1)

/-! ### Tool layer (`app/tools.py`) -/

/-- The eight intervals accepted by every price tool. -/
def validIntervals : List String := ["1m", "5m", "15m", "30m", "1H", "1D", "1W", "1M"]

/-- The column names a caller may request from `view_ohlcv`. -/
def availableColumns : List String :=
  ["time", "open", "high", "low", "close", "volume"]

/-- The rejection message for an interval outside the eight values. -/
def intervalErrMsg : String :=
  "Khung thời gian không hợp lệ. Các khung thời gian có sẵn: " ++
    String.intercalate ", " validIntervals

/-- The rejection message for invalid requested columns. -/
def invalidColsMsg (invalid : List String) : String :=
  "Cột không hợp lệ: " ++ String.intercalate ", " invalid ++
    ". Các cột có sẵn: " ++ String.intercalate ", " availableColumns

/-- Per-symbol message for an empty or `None` OHLCV fetch. -/
def noDataMsg (symbol start end_ interval : String) : String :=
  "Không tìm thấy dữ liệu OHLCV cho mã " ++ symbol ++ " từ " ++ start ++
    " đến " ++ end_ ++ " với khung thời gian " ++ interval

/-- Round-half-to-even to an integer (the rounding of numpy/pandas
`.round`). -/
def halfEven (x : ℚ) : Int :=
  let f := x.floor
  let r := x - (f : ℚ)
  if r < 1/2 then f
  else if 1/2 < r then f + 1
  else if f % 2 = 0 then f else f + 1

/-- `.round(2)`: round to 2 decimal places, half to even. -/
def round2 (q : ℚ) : ℚ := (halfEven (q * 100) : ℚ) / 100

/-- Python `int(·)` on a number: truncation toward zero. -/
def pyInt (q : ℚ) : Int := if 0 ≤ q then q.floor else -((-q).floor)

/-- pandas `Series.sum()`: NaN cells are skipped. -/
def colSum (c : Col) : ℚ := (c.filterMap id).sum

/-- Extract the values of a window when none is NaN. -/
def allSome : List (Option ℚ) → Option (List ℚ)
  | [] => some []
  | none :: _ => none
  | some q :: rest => (allSome rest).map (fun vs => q :: vs)

/-- Mean of a rolling window; NaN when any cell of the window is NaN
(the window only reaches this point when it holds `min_periods`
observations). -/
def winMean (w : Col) : Option ℚ :=
  match allSome w with
  | some vs => some (vs.sum / (vs.length : ℚ))
  | none => none

/-- `pandas_ta_classic.sma(close, length=p)` =
`close.rolling(p, min_periods=p).mean()`: NaN for the first `p − 1`
positions, else the mean of the trailing window of `p` cells. -/
def taSMA (close : Col) (p : Nat) : Col :=
  (List.range close.length).map (fun i =>
    if i + 1 < p then none
    else winMean ((close.drop (i + 1 - p)).take p))

/-- `.round(2)` applied to a whole column; NaN stays NaN. -/
def roundCol (c : Col) : Col := c.map (Option.map round2)

/-- One iteration of the SMA period loop:
`df[f'SMA_{p}'] = ta.sma(df['close'], length=p)` followed by
`df[f'SMA_{p}'] = df[f'SMA_{p}'].round(2)`. -/
def smaStep (df : DataFrame) (p : Int) : DataFrame :=
  let name := "SMA_" ++ intStr p
  let df1 := df.setCol name (taSMA (df.getCol "close") p.toNat)
  df1.setCol name (roundCol (df1.getCol name))

/-- The whole SMA period loop over one symbol's frame. -/
def applySMAs (df : DataFrame) (periods : List Int) : DataFrame :=
  periods.foldl smaStep df

/-- `close.diff(1)`: NaN at position 0 and wherever an operand is NaN. -/
def diffCol (c : Col) : Col :=
  (List.range c.length).map (fun i =>
    match i with
    | 0 => none
    | Nat.succ j =>
      match c.getD (j + 1) none, c.getD j none with
      | some a, some b => some (a - b)
      | _, _ => none)

/-- `Series.ewm(alpha=α, min_periods=m).mean()` with the pandas defaults
`adjust=True`, `ignore_na=False`: at position `i`, the
`(1-α)^(i-j)`-weighted mean of the non-NaN observations `x_j`, `j ≤ i`;
NaN until `m` observations have been seen. -/
def ewmMean (alpha : ℚ) (minPeriods : Nat) (xs : Col) : Col :=
  (List.range xs.length).map (fun i =>
    let obs := ((xs.take (i + 1)).zip (List.range (i + 1))).filterMap
      (fun pr => match pr.1 with | some v => some (v, pr.2) | none => none)
    if obs.length < minPeriods then none
    else
      let wsum : ℚ := (obs.map (fun o => (1 - alpha) ^ (i - o.2))).sum
      let vsum : ℚ := (obs.map (fun o => (1 - alpha) ^ (i - o.2) * o.1)).sum
      some (vsum / wsum))

/-- `pandas_ta_classic.rsi(close, length=p)`: split the one-bar
differences into gains and losses, smooth each with Wilder's RMA
(`ewm(alpha=1/p, min_periods=p).mean()`), and take
`100 * posAvg / (posAvg + |negAvg|)`. -/
def taRSI (close : Col) (p : Nat) : Col :=
  let d := diffCol close
  let pos := d.map (Option.map (fun x => if x < 0 then 0 else x))
  let neg := d.map (Option.map (fun x => if 0 < x then 0 else x))
  let posAvg := ewmMean ((1 : ℚ) / (p : ℚ)) p pos
  let negAvg := ewmMean ((1 : ℚ) / (p : ℚ)) p neg
  (List.range close.length).map (fun i =>
    match posAvg.getD i none, negAvg.getD i none with
    | some pa, some na => some (100 * pa / (pa + |na|))
    | _, _ => none)

/-- `df[f'RSI_{p}'] = ta.rsi(df['close'], length=p)` followed by the
round-to-2-decimals assignment. -/
def rsiStep (df : DataFrame) (p : Int) : DataFrame :=
  let name := "RSI_" ++ intStr p
  let df1 := df.setCol name (taRSI (df.getCol "close") p.toNat)
  df1.setCol name (roundCol (df1.getCol name))

/-- Body of the `view_ohlcv` symbol loop (`ViewOHLCVTool._run`).  The
source reassigns the `columns` variable to `['time'] + columns` inside
the loop; the reassignment is idempotent, so each iteration filters by
the same effective column list. -/
def perSymbolView (fetch : String → FetchR) (start end_ interval : String)
    (columns : Option (List String)) (symbol : String) : SymResult :=
  match fetch symbol with
  | .exn e => .err ("Lỗi khi lấy dữ liệu OHLCV cho mã " ++ symbol ++ ": " ++ e)
  | .nores => .err (noDataMsg symbol start end_ interval)
  | .df d =>
    if d.isEmpty then .err (noDataMsg symbol start end_ interval)
    else
      let cs := columns.getD []
      if cs.isEmpty then .records (toRecords d)
      else
        let cs' := if "time" ∈ cs then cs else "time" :: cs
        let avail := cs'.filter (fun c => decide (c ∈ d.columns))
        if avail.isEmpty then
          .err ("Không tìm thấy cột nào trong dữ liệu cho mã " ++ symbol)
        else
          .records (toRecords (avail.map (fun c => (c, d.getCol c))))

/-- `ViewOHLCVTool._run`: interval check, column check (only when a
column list was supplied — Python truthiness treats `None` and `[]`
alike), then the symbol loop.  The second component is the trace of
symbols for which a provider fetch was issued. -/
def runView (fetch : String → FetchR) (symbols : List String)
    (start end_ interval : String) (columns : Option (List String)) :
    ToolOutput × List String :=
  if interval ∈ validIntervals then
    let cs := columns.getD []
    let invalid := cs.filter (fun c => decide (c ∉ availableColumns))
    if !cs.isEmpty && !invalid.isEmpty then
      (.globalMsg (invalidColsMsg invalid), [])
    else
      (.mapping (runMap (perSymbolView fetch start end_ interval columns) symbols),
        symbols)
  else (.globalMsg intervalErrMsg, [])

/-- Per-symbol message for a missing shareholders record. -/
def shNoDataMsg (symbol : String) : String :=
  "Không tìm thấy thông tin cổ đông cho mã " ++ symbol

/-- Body of the `view_shareholders` symbol loop
(`ViewShareholdersTool._run`). -/
def perSymbolShareholders (fetch : String → FetchR) (symbol : String) :
    SymResult :=
  match fetch symbol with
  | .exn e =>
    .err ("Lỗi khi lấy thông tin cổ đông cho mã " ++ symbol ++ ": " ++ e)
  | .nores => .err (shNoDataMsg symbol)
  | .df d =>
    if d.isEmpty then .err (shNoDataMsg symbol)
    else .records (toRecords d)

/-- `ViewShareholdersTool._run`: no structural validation, just the
symbol loop. -/
def runShareholders (fetch : String → FetchR) (symbols : List String) :
    List (String × SymResult) :=
  runMap (perSymbolShareholders fetch) symbols

/-- Body of the `calculate_total_volume` symbol loop
(`CalculateTotalVolumeTool._run`). -/
def perSymbolVolume (fetch : String → FetchR) (start end_ interval : String)
    (symbol : String) : SymResult :=
  match fetch symbol with
  | .exn e =>
    .err ("Lỗi khi tính tổng khối lượng cho mã " ++ symbol ++ ": " ++ e)
  | .nores => .err (noDataMsg symbol start end_ interval)
  | .df d =>
    if d.isEmpty then .err (noDataMsg symbol start end_ interval)
    else if "volume" ∈ d.columns then
      .intVal (pyInt (colSum (d.getCol "volume")))
    else
      .err ("Không tìm thấy cột \x27volume\x27 trong dữ liệu cho mã " ++ symbol)

/-- `CalculateTotalVolumeTool._run`. -/
def runVolume (fetch : String → FetchR) (symbols : List String)
    (start end_ interval : String) : ToolOutput × List String :=
  if interval ∈ validIntervals then
    (.mapping (runMap (perSymbolVolume fetch start end_ interval) symbols),
      symbols)
  else (.globalMsg intervalErrMsg, [])

/-- The SMA period rejection message. -/
def smaPeriodErrMsg (p : Int) : String :=
  "Chu kỳ SMA phải là số dương. Giá trị nhận được: " ++ intStr p

/-- The RSI period rejection message. -/
def rsiPeriodErrMsg (p : Int) : String :=
  "Chu kỳ RSI phải là số dương. Giá trị nhận được: " ++ intStr p

/-- Body of the `calculate_sma` symbol loop (`CalculateSMATool._run`). -/
def perSymbolSMA (fetch : String → FetchR) (start end_ interval : String)
    (periods : List Int) (symbol : String) : SymResult :=
  match fetch symbol with
  | .exn e => .err ("Lỗi khi tính toán SMA cho mã " ++ symbol ++ ": " ++ e)
  | .nores => .err (noDataMsg symbol start end_ interval)
  | .df d =>
    if d.isEmpty then .err (noDataMsg symbol start end_ interval)
    else if "close" ∈ d.columns then
      .records (toRecords (applySMAs d periods))
    else
      .err ("Không tìm thấy cột \x27close\x27 trong dữ liệu cho mã " ++ symbol)

/-- `CalculateSMATool._run`: interval check, then the period loop
(returning at the first non-positive period), then the symbol loop. -/
def runSMA (fetch : String → FetchR) (symbols : List String)
    (start end_ interval : String) (periods : List Int) :
    ToolOutput × List String :=
  if interval ∈ validIntervals then
    match periods.find? (fun p => decide (p ≤ 0)) with
    | some p => (.globalMsg (smaPeriodErrMsg p), [])
    | none =>
      (.mapping (runMap (perSymbolSMA fetch start end_ interval periods) symbols),
        symbols)
  else (.globalMsg intervalErrMsg, [])

/-- Body of the `calculate_rsi` symbol loop (`CalculateRSITool._run`). -/
def perSymbolRSI (fetch : String → FetchR) (start end_ interval : String)
    (p : Int) (symbol : String) : SymResult :=
  match fetch symbol with
  | .exn e => .err ("Lỗi khi tính toán RSI cho mã " ++ symbol ++ ": " ++ e)
  | .nores => .err (noDataMsg symbol start end_ interval)
  | .df d =>
    if d.isEmpty then .err (noDataMsg symbol start end_ interval)
    else if "close" ∈ d.columns then
      .records (toRecords (rsiStep d p))
    else
      .err ("Không tìm thấy cột \x27close\x27 trong dữ liệu cho mã " ++ symbol)

/-- `CalculateRSITool._run`: interval check, period check, symbol loop. -/
def runRSI (fetch : String → FetchR) (symbols : List String)
    (start end_ interval : String) (p : Int) : ToolOutput × List String :=
  if interval ∈ validIntervals then
    if p ≤ 0 then (.globalMsg (rsiPeriodErrMsg p), [])
    else
      (.mapping (runMap (perSymbolRSI fetch start end_ interval p) symbols),
        symbols)
  else (.globalMsg intervalErrMsg, [])

/-! ### Orchestrator (`app/main.py`) and agent configuration
(`app/agent.py`) -/

/-- Insert/overwrite a field of a JSON record (Python dict assignment
`r["symbol"] = symbol`). -/
def recInsert : Rec → String → CellVal → Rec
  | [], k, v => [(k, v)]
  | f :: r, k, v => if f.1 = k then (k, v) :: r else f :: recInsert r k v

/-- Field lookup on a JSON record. -/
def recGet (r : Rec) (k : String) : Option CellVal :=
  match r.find? (fun f => decide (f.1 = k)) with
  | some f => some f.2
  | none => none

/-- Render a rational the way pandas prints a scalar. -/
def renderQ (q : ℚ) : String :=
  if q.den = 1 then intStr q.num
  else intStr q.num ++ "/" ++ natStr q.den

/-- Render one table cell. -/
def renderCell : CellVal → String
  | .num q => renderQ q
  | .str s => s
  | .null => "NaN"

/-- Zero-pad a calendar component to two digits. -/
def pad2 (n : Int) : String :=
  if 0 ≤ n ∧ n < 10 then "0" ++ intStr n else intStr n

/-- Proleptic Gregorian date from a day count since the Unix epoch
(Euclidean divisions keep every intermediate quantity non-negative). -/
def civilFromDays (z0 : Int) : Int × Int × Int :=
  let z := z0 + 719468
  let era := z.ediv 146097
  let doe := z - era * 146097
  let yoe := (doe - doe.ediv 1460 + doe.ediv 36524 - doe.ediv 146096).ediv 365
  let y := yoe + era * 400
  let doy := doe - (365 * yoe + yoe.ediv 4 - yoe.ediv 100)
  let mp := (5 * doy + 2).ediv 153
  let d := doy - (153 * mp + 2).ediv 5 + 1
  let m := mp + (if mp < 10 then 3 else -9)
  (y + (if m ≤ 2 then 1 else 0), m, d)

/-- `pd.to_datetime(t, unit='ms')` rendered as `YYYY-MM-DD HH:MM:SS`. -/
def msToStamp (q : ℚ) : String :=
  let ms := q.floor
  let s := ms.ediv 1000
  let days := s.ediv 86400
  let sod := s.emod 86400
  let ymd := civilFromDays days
  let hh := sod.ediv 3600
  let mm := (sod.emod 3600).ediv 60
  let ss := sod.emod 60
  intStr ymd.1 ++ "-" ++ pad2 ymd.2.1 ++ "-" ++ pad2 ymd.2.2 ++ " " ++
    pad2 hh ++ ":" ++ pad2 mm ++ ":" ++ pad2 ss

/-- Column list of `pd.DataFrame(all_rows)`: union of the record keys in
first-appearance order. -/
def tableCols (rows : List Rec) : List String :=
  firstDedup (rows.map (fun r => r.map Prod.fst)).flatten

/-- `df.to_string(index=False)`: header line then one line per row,
absent cells shown as NaN. -/
def renderTable (rows : List Rec) : String :=
  let cols := tableCols rows
  String.intercalate "\n"
    (String.intercalate " " cols ::
      rows.map (fun r =>
        String.intercalate " " (cols.map (fun c =>
          match recGet r c with
          | some v => renderCell v
          | none => "NaN"))))

/-- The parse status of `result['messages'][-1].content` under
`json.loads`: either it was the dump of a tool result dict, or it was
any other text (not valid JSON, or not an object), on which the
table-construction `try` block raises at once. -/
inductive LastContent where
  | toolMapping (m : List (String × SymResult))
  | rawText (s : String)
deriving DecidableEq, Repr

/-- The dict the agent returns to `process_query`: the structured
response content when that key is present, the last message's content,
and the `output` value when that key is present. -/
structure AgentResult where
  structuredResponse : Option String
  lastContent : LastContent
  output : Option String
deriving DecidableEq, Repr

/-- The `all_rows` accumulation of the raw-payload branch: per symbol,
`json.loads` the inner value (raising — hence `none` — unless it is the
dump of a record list), stamp `r["symbol"] = symbol` onto each record,
and extend in symbol order. -/
def stampRows : List (String × SymResult) → Option (List Rec)
  | [] => some []
  | (symbol, SymResult.records rs) :: rest =>
    (stampRows rest).map (fun rows =>
      rs.map (fun r => recInsert r "symbol" (.str symbol)) ++ rows)
  | _ => none

/-- `df["time"] = pd.to_datetime(df["time"], unit="ms")` succeeds iff a
`time` column exists (some record has the key) and no `time` cell holds
a string. -/
def timeOk (rows : List Rec) : Bool :=
  rows.any (fun r => (recGet r "time").isSome) &&
    rows.all (fun r =>
      match recGet r "time" with
      | some (.str _) => false
      | _ => true)

/-- Convert the `time` field of every record to a rendered timestamp. -/
def convertTimes (rows : List Rec) : List Rec :=
  rows.map (fun r => r.map (fun f =>
    if f.1 = "time" then
      (f.1, match f.2 with
            | CellVal.num q => CellVal.str (msToStamp q)
            | v => v)
    else f))

/-- The `try` block of the raw-direct-tool branch of `process_query`:
parse the payload as a symbol-keyed mapping of JSON record lists,
flatten with the symbol stamped on each row, convert epoch-millisecond
times, and render the frame; `none` when any step raises. -/
def tryTable : LastContent → Option String
  | .rawText _ => none
  | .toolMapping m =>
    match stampRows m with
    | none => none
    | some rows =>
      if timeOk rows then some (renderTable (convertTimes rows)) else none

/-- A concrete rendering of a per-symbol value inside `str(result)`. -/
def renderSymResult : SymResult → String
  | .records rs =>
    "\x27[" ++ String.intercalate ", " (rs.map (fun r =>
      "\x7b" ++ String.intercalate ", " (r.map (fun f =>
        "\x22" ++ f.1 ++ "\x22: " ++ renderCell f.2)) ++ "\x7d")) ++ "]\x27"
  | .intVal n => intStr n
  | .err m => "\x27" ++ m ++ "\x27"

/-- A concrete rendering of the last message content inside
`str(result)`. -/
def renderLastContent : LastContent → String
  | .toolMapping m =>
    "\x7b" ++ String.intercalate ", " (m.map (fun p =>
      "\x27" ++ p.1 ++ "\x27: " ++ renderSymResult p.2)) ++ "\x7d"
  | .rawText s => s

/-- `str(result)`: the Python dict rendering of the agent result. -/
def strAgentResult (r : AgentResult) : String :=
  "\x7b\x27messages\x27: [" ++ renderLastContent r.lastContent ++ "]" ++
    (match r.structuredResponse with
     | some c => ", \x27structured_response\x27: " ++ c
     | none => "") ++ "\x7d"

/-- The simple-query answer extraction of `process_query`: the
structured response content when present; otherwise the rendered table
when the raw payload parses; otherwise
`str(result.get('output', result))`. -/
def extractAnswer (r : AgentResult) : String :=
  match r.structuredResponse with
  | some content => content
  | none =>
    match tryTable r.lastContent with
    | some t => t
    | none =>
      match r.output with
      | some o => o
      | none => strAgentResult r

/-- The per-sub-query payload of the complex branch:
`result.get('output', str(result))`. -/
def complexSubAnswer (r : AgentResult) : String :=
  match r.output with
  | some o => o
  | none => strAgentResult r

/-- The `formatted_results` accumulation loop of the complex branch:
`for i, result in enumerate(results, 1): formatted_results +=
f"Kết quả {i}:\n{result.get('output', str(result))}\n\n"`. -/
def formatGo : Nat → String → List AgentResult → String
  | _, acc, [] => acc
  | i, acc, r :: rs =>
    formatGo (i + 1)
      (acc ++ "Kết quả " ++ natStr i ++ ":\n" ++ complexSubAnswer r ++ "\n\n")
      rs

/-- `formatted_results` for a list of agent results. -/
def formattedResults (rs : List AgentResult) : String := formatGo 1 "" rs

/-- The complex branch of `process_query`: invoke the agent on each
sub-query in decomposition order, format the raw results, and hand the
original query plus the formatted block string to the combine chain. -/
def processComplex (agentF : String → AgentResult)
    (combine : String → String → String) (query : String)
    (subQueries : List String) : String :=
  let results := subQueries.map agentF
  combine query (formattedResults results)

/-- Closed form of the formatted block string: one
`Kết quả N:\n<payload>\n\n` block per result, numbered from `N`. -/
def answerBlocks : Nat → List AgentResult → String
  | _, [] => ""
  | i, r :: rs =>
    "Kết quả " ++ natStr i ++ ":\n" ++ complexSubAnswer r ++ "\n\n" ++
      answerBlocks (i + 1) rs

/-- The seven tools of `get_all_tools` / `create_finance_agent`. -/
inductive ToolName where
  | view_ohlcv
  | view_management
  | view_shareholders
  | view_subsidiaries
  | calculate_total_volume
  | calculate_sma
  | calculate_rsi
deriving DecidableEq, Repr

/-- The `return_direct` class default declared by every tool class in
`app/tools.py`. -/
def classReturnDirect : ToolName → Bool := fun _ => false

/-- The tool list `create_finance_agent` builds, with the
`return_direct` value passed to each constructor (`app/agent.py`). -/
def agentTools : List (ToolName × Bool) :=
  [(.view_ohlcv, true), (.view_management, false), (.view_shareholders, false),
   (.view_subsidiaries, false), (.calculate_total_volume, false),
   (.calculate_sma, true), (.calculate_rsi, true)]

/-- The `return_direct` flag the agent's tool set assigns to a tool
(falling back to the class default for a tool the agent does not
override — `create_finance_agent` in fact overrides all seven). -/
def agentReturnDirect (t : ToolName) : Bool :=
  match agentTools.find? (fun p => decide (p.1 = t)) with
  | some p => p.2
  | none => classReturnDirect t

/-! ### Concrete fixtures used by witnesses -/

/-- A small rectangular price frame with two bars. -/
def dfPrice : DataFrame :=
  [("time", [some 1700000000000, some 1700086400000]),
   ("open", [some 10, some 11]),
   ("close", [some 25, some 26]),
   ("volume", [some 100, some 200])]

/-- A frame holding none of the requestable columns. -/
def dfNoCols : DataFrame := [("foo", [some 1])]

/-- A provider oracle: `ZZZZ` has no data, `ERR` raises, `NOCOL` returns
a frame without the requestable columns, everything else returns
`dfPrice`. -/
def fetchMix : String → FetchR := fun s =>
  if s = "ZZZZ" then .nores
  else if s = "ERR" then .exn "boom"
  else if s = "NOCOL" then .df dfNoCols
  else .df dfPrice

/-! ### Result-dict lemmas -/

theorem dictKeys_dictInsert (m : List (String × SymResult)) (k : String)
    (v : SymResult) :
    dictKeys (dictInsert m k v) =
      if k ∈ dictKeys m then dictKeys m else dictKeys m ++ [k] := by
  induction m with
  | nil => simp [dictInsert, dictKeys]
  | cons p m ih =>
    by_cases hpk : p.1 = k
    · simp [dictInsert, dictKeys, hpk]
    · simp only [dictInsert, if_neg hpk, dictKeys, List.map_cons] at *
      rw [ih]
      have hne : ¬ k = p.1 := fun hh => hpk hh.symm
      by_cases hmem : k ∈ m.map Prod.fst
      · simp [hmem, hne]
      · simp [hmem, hne]

theorem alistLookup_dictInsert_self (m : List (String × SymResult))
    (k : String) (v : SymResult) :
    alistLookup (dictInsert m k v) k = some v := by
  induction m with
  | nil => simp [dictInsert, alistLookup]
  | cons p m ih =>
    by_cases hpk : p.1 = k
    · simp [dictInsert, alistLookup, hpk]
    · simp [dictInsert, alistLookup, hpk, ih]

theorem alistLookup_dictInsert_ne (m : List (String × SymResult))
    (k k' : String) (v : SymResult) (h : k' ≠ k) :
    alistLookup (dictInsert m k v) k' = alistLookup m k' := by
  induction m with
  | nil => simp [dictInsert, alistLookup, Ne.symm h]
  | cons p m ih =>
    by_cases hpk : p.1 = k
    · simp [dictInsert, alistLookup, hpk, Ne.symm h]
    · by_cases hpk' : p.1 = k'
      · simp [dictInsert, alistLookup, hpk, hpk', h]
      · simp [dictInsert, alistLookup, hpk, hpk', ih]

theorem alistLookup_runMap_aux (f : String → SymResult)
    (symbols : List String) (acc : List (String × SymResult)) (s : String) :
    alistLookup (symbols.foldl (fun res x => dictInsert res x (f x)) acc) s =
      if s ∈ symbols then some (f s) else alistLookup acc s := by
  induction symbols generalizing acc with
  | nil => simp
  | cons x xs ih =>
    simp only [List.foldl_cons, ih, List.mem_cons]
    by_cases hsx : s ∈ xs
    · simp [hsx]
    · by_cases hx : s = x
      · simp [hx, hsx, alistLookup_dictInsert_self]
      · simp [hx, hsx, alistLookup_dictInsert_ne _ _ _ _ hx]

/-- The result dict maps each input symbol to the value its own
per-symbol computation produced. -/
theorem alistLookup_runMap (f : String → SymResult) (symbols : List String)
    (s : String) (hs : s ∈ symbols) :
    alistLookup (runMap f symbols) s = some (f s) := by
  unfold runMap
  rw [alistLookup_runMap_aux]
  simp [hs]

theorem dictKeys_runMap_aux (f : String → SymResult) (symbols : List String)
    (acc : List (String × SymResult)) :
    dictKeys (symbols.foldl (fun res x => dictInsert res x (f x)) acc) =
      dictKeys acc ++ firstDedupFrom (dictKeys acc) symbols := by
  induction symbols generalizing acc with
  | nil => simp [firstDedupFrom]
  | cons x xs ih =>
    simp only [List.foldl_cons, ih, dictKeys_dictInsert, firstDedupFrom]
    by_cases hx : x ∈ dictKeys acc
    · simp [hx]
    · have : dictKeys (acc ++ [(x, f x)]) = dictKeys acc ++ [x] := by
        simp [dictKeys]
      simp only [if_neg hx, this, List.append_assoc, List.cons_append,
        List.nil_append]
      congr 1
      have : firstDedupFrom (x :: dictKeys acc) xs =
          firstDedupFrom (dictKeys acc ++ [x]) xs := by
        have hperm : ∀ (seen seen' : List String), (∀ a, a ∈ seen ↔ a ∈ seen') →
            ∀ l, firstDedupFrom seen l = firstDedupFrom seen' l := by
          intro seen seen' hiff l
          induction l generalizing seen seen' with
          | nil => simp [firstDedupFrom]
          | cons y ys ihl =>
            simp only [firstDedupFrom]
            by_cases hy : y ∈ seen
            · simp [hy, (hiff y).mp hy, ihl seen seen' hiff]
            · have hy' : y ∉ seen' := fun hh => hy ((hiff y).mpr hh)
              simp only [if_neg hy, if_neg hy']
              rw [ihl (y :: seen) (y :: seen') (by intro a; simp [hiff a])]
        exact hperm _ _ (by intro a; simp [or_comm]) xs
      rw [this]

/-- The result dict has exactly one key per distinct input symbol, in
first-occurrence order. -/
theorem dictKeys_runMap (f : String → SymResult) (symbols : List String) :
    dictKeys (runMap f symbols) = firstDedup symbols := by
  unfold runMap firstDedup
  rw [dictKeys_runMap_aux]
  simp [dictKeys]

/-! ### Claims about configuration and structural validation -/

/-- C7: the Agent's tool set (`create_finance_agent`) assigns
`return_direct = True` to exactly the price-retrieval (`view_ohlcv`),
SMA, and RSI tools, and `return_direct = False` to the management,
shareholders, subsidiaries, and total-volume tools. -/
theorem agent_return_direct_exact :
    agentReturnDirect .view_ohlcv = true ∧
    agentReturnDirect .calculate_sma = true ∧
    agentReturnDirect .calculate_rsi = true ∧
    agentReturnDirect .view_management = false ∧
    agentReturnDirect .view_shareholders = false ∧
    agentReturnDirect .view_subsidiaries = false ∧
    agentReturnDirect .calculate_total_volume = false := by decide

/-- C4: for every tool taking an interval (`view_ohlcv`,
`calculate_total_volume`, `calculate_sma`, `calculate_rsi`), an interval
outside the eight enumerated values makes the whole call return the
single message listing the eight valid intervals, with no provider
fetch issued and no per-symbol processing. -/
theorem invalid_interval_rejects_before_fetch
    (fetch : String → FetchR) (symbols : List String)
    (start end_ interval : String) (columns : Option (List String))
    (periods : List Int) (p : Int)
    (h : interval ∉ validIntervals) :
    runView fetch symbols start end_ interval columns =
      (.globalMsg intervalErrMsg, []) ∧
    runVolume fetch symbols start end_ interval =
      (.globalMsg intervalErrMsg, []) ∧
    runSMA fetch symbols start end_ interval periods =
      (.globalMsg intervalErrMsg, []) ∧
    runRSI fetch symbols start end_ interval p =
      (.globalMsg intervalErrMsg, []) ∧
    intervalErrMsg =
      "Khung thời gian không hợp lệ. Các khung thời gian có sẵn: " ++
        "1m, 5m, 15m, 30m, 1H, 1D, 1W, 1M" := by
  refine ⟨?_, ?_, ?_, ?_, by decide⟩ <;>
    simp [runView, runVolume, runSMA, runRSI, h]

/-- Witness for C4 at the spec's scenario C interval `"2D"`. -/
theorem invalid_interval_rejects_before_fetch_witness :
    "2D" ∉ validIntervals ∧
    runView (fun _ => FetchR.nores) ["VCB"] "2025-09-01" "2025-10-01" "2D" none =
      (.globalMsg intervalErrMsg, []) := by
  refine ⟨by decide, ?_⟩
  exact (invalid_interval_rejects_before_fetch (fun _ => FetchR.nores) ["VCB"]
    "2025-09-01" "2025-10-01" "2D" none [20] 14 (by decide)).1

/-- C3: a non-positive requested period makes the SMA tool (any listed
period) and the RSI tool reject the whole request with one explanatory
message, with no data fetch issued for any symbol; when the interval is
itself valid, the message is the period message naming the first
offending period. -/
theorem nonpositive_period_rejects_before_fetch
    (fetch : String → FetchR) (symbols : List String)
    (start end_ interval : String) (periods : List Int) (pr : Int) :
    ((∃ p ∈ periods, p ≤ 0) →
      (runSMA fetch symbols start end_ interval periods).2 = [] ∧
      (∃ msg, (runSMA fetch symbols start end_ interval periods).1 =
        .globalMsg msg) ∧
      (interval ∈ validIntervals → ∀ p,
        periods.find? (fun q => decide (q ≤ 0)) = some p →
        (runSMA fetch symbols start end_ interval periods).1 =
          .globalMsg (smaPeriodErrMsg p))) ∧
    (pr ≤ 0 →
      (runRSI fetch symbols start end_ interval pr).2 = [] ∧
      (∃ msg, (runRSI fetch symbols start end_ interval pr).1 =
        .globalMsg msg) ∧
      (interval ∈ validIntervals →
        (runRSI fetch symbols start end_ interval pr).1 =
          .globalMsg (rsiPeriodErrMsg pr))) := by
  constructor
  · rintro ⟨p, hp, hple⟩
    by_cases hi : interval ∈ validIntervals
    · have hsome : (periods.find? (fun q => decide (q ≤ 0))).isSome := by
        rw [List.find?_isSome]
        exact ⟨p, hp, by simpa using hple⟩
      rcases Option.isSome_iff_exists.mp hsome with ⟨q, hq⟩
      refine ⟨?_, ⟨smaPeriodErrMsg q, ?_⟩, ?_⟩
      · simp [runSMA, hi, hq]
      · simp [runSMA, hi, hq]
      · intro _ r hr
        rw [hq] at hr
        cases hr
        simp [runSMA, hi, hq]
    · exact ⟨by simp [runSMA, hi], ⟨intervalErrMsg, by simp [runSMA, hi]⟩,
        fun hI => absurd hI hi⟩
  · intro hple
    by_cases hi : interval ∈ validIntervals
    · exact ⟨by simp [runRSI, hi, hple], ⟨rsiPeriodErrMsg pr,
        by simp [runRSI, hi, hple]⟩, fun _ => by simp [runRSI, hi, hple]⟩
    · exact ⟨by simp [runRSI, hi], ⟨intervalErrMsg, by simp [runRSI, hi]⟩,
        fun hI => absurd hI hi⟩

/-- Witness for C3: SMA with periods `[20, 0]` and RSI with period `-3`
are both rejected with an empty fetch trace. -/
theorem nonpositive_period_rejects_before_fetch_witness :
    ((runSMA (fun _ => FetchR.nores) ["VCB", "VIC"] "2025-09-01" "2025-10-01"
        "1D" [20, 0]).2 = [] ∧
      (∃ msg, (runSMA (fun _ => FetchR.nores) ["VCB", "VIC"] "2025-09-01"
        "2025-10-01" "1D" [20, 0]).1 = .globalMsg msg) ∧
      (("1D" : String) ∈ validIntervals → ∀ p,
        ([20, 0] : List Int).find? (fun q => decide (q ≤ 0)) = some p →
        (runSMA (fun _ => FetchR.nores) ["VCB", "VIC"] "2025-09-01"
          "2025-10-01" "1D" [20, 0]).1 = .globalMsg (smaPeriodErrMsg p))) ∧
    ((runRSI (fun _ => FetchR.nores) ["VCB", "VIC"] "2025-09-01" "2025-10-01"
        "1D" (-3)).2 = [] ∧
      (∃ msg, (runRSI (fun _ => FetchR.nores) ["VCB", "VIC"] "2025-09-01"
        "2025-10-01" "1D" (-3)).1 = .globalMsg msg) ∧
      (("1D" : String) ∈ validIntervals →
        (runRSI (fun _ => FetchR.nores) ["VCB", "VIC"] "2025-09-01"
          "2025-10-01" "1D" (-3)).1 = .globalMsg (rsiPeriodErrMsg (-3)))) := by
  constructor
  · exact (nonpositive_period_rejects_before_fetch (fun _ => FetchR.nores)
      ["VCB", "VIC"] "2025-09-01" "2025-10-01" "1D" [20, 0] (-3)).1
      ⟨0, by decide, by decide⟩
  · exact (nonpositive_period_rejects_before_fetch (fun _ => FetchR.nores)
      ["VCB", "VIC"] "2025-09-01" "2025-10-01" "1D" [20, 0] (-3)).2
      (by decide)

/-! ### Per-symbol isolation and completeness claims -/

/-- C2: with valid structural inputs, each symbol of a multi-symbol call
is processed independently: the result dict keys every symbol to the
outcome of its own fetch — a descriptive Vietnamese message on failure
(no data, empty frame, provider exception), the normal record list on
success.  In particular, for the shareholders tool with one empty
symbol and one symbol with data, the mapping holds an error message for
the first and a record list for the second. -/
theorem per_symbol_failure_isolated
    (fetch fetchSh : String → FetchR) (symbols : List String)
    (start end_ interval : String) (a b : String) (d : DataFrame)
    (hi : interval ∈ validIntervals)
    (ha : fetchSh a = .nores) (hb : fetchSh b = .df d)
    (hd : d.isEmpty = false) :
    (∃ m, (runView fetch symbols start end_ interval none).1 = .mapping m ∧
      ∀ s ∈ symbols, alistLookup m s =
        some (perSymbolView fetch start end_ interval none s)) ∧
    (∀ s e, fetch s = .exn e →
      perSymbolView fetch start end_ interval none s =
        .err ("Lỗi khi lấy dữ liệu OHLCV cho mã " ++ s ++ ": " ++ e)) ∧
    (∀ s, fetch s = .nores →
      perSymbolView fetch start end_ interval none s =
        .err (noDataMsg s start end_ interval)) ∧
    (∀ s d', fetch s = .df d' → d'.isEmpty = true →
      perSymbolView fetch start end_ interval none s =
        .err (noDataMsg s start end_ interval)) ∧
    (∀ s d', fetch s = .df d' → d'.isEmpty = false →
      perSymbolView fetch start end_ interval none s =
        .records (toRecords d')) ∧
    alistLookup (runShareholders fetchSh [a, b]) a =
      some (.err (shNoDataMsg a)) ∧
    alistLookup (runShareholders fetchSh [a, b]) b =
      some (.records (toRecords d)) := by
  refine ⟨⟨runMap (perSymbolView fetch start end_ interval none) symbols,
      ?_, ?_⟩, ?_, ?_, ?_, ?_, ?_, ?_⟩
  · simp [runView, hi]
  · intro s hs
    exact alistLookup_runMap _ _ _ hs
  · intro s e hf
    simp [perSymbolView, hf]
  · intro s hf
    simp [perSymbolView, hf]
  · intro s d' hf hde
    simp [perSymbolView, hf, hde]
  · intro s d' hf hde
    simp [perSymbolView, hf, hde]
  · rw [runShareholders, alistLookup_runMap _ _ _ (by simp)]
    simp [perSymbolShareholders, ha]
  · rw [runShareholders, alistLookup_runMap _ _ _ (by simp)]
    simp [perSymbolShareholders, hb, hd]

/-- Witness for C2: symbols `["ZZZZ", "VCB"]` against `fetchMix` — an
error message for the empty symbol, records for the other. -/
theorem per_symbol_failure_isolated_witness :
    alistLookup (runShareholders fetchMix ["ZZZZ", "VCB"]) "ZZZZ" =
      some (.err (shNoDataMsg "ZZZZ")) ∧
    alistLookup (runShareholders fetchMix ["ZZZZ", "VCB"]) "VCB" =
      some (.records (toRecords dfPrice)) :=
  ⟨(per_symbol_failure_isolated fetchMix fetchMix ["VCB"] "2025-09-01"
      "2025-10-01" "1D" "ZZZZ" "VCB" dfPrice (by decide) (by decide)
      (by decide) (by decide)).2.2.2.2.2.1,
   (per_symbol_failure_isolated fetchMix fetchMix ["VCB"] "2025-09-01"
      "2025-10-01" "1D" "ZZZZ" "VCB" dfPrice (by decide) (by decide)
      (by decide) (by decide)).2.2.2.2.2.2⟩

/-- C9: for calls passing structural validation, the result dict has
exactly one entry per distinct input symbol in first-occurrence order,
each entry being that symbol's own per-symbol outcome — a success value
(record list for shareholders, integer for total volume) or a
per-symbol error string; no symbol is dropped and no extra key
appears. -/
theorem result_mapping_complete
    (fetchSh fetchV : String → FetchR) (symbols : List String)
    (start end_ interval : String) (hi : interval ∈ validIntervals) :
    (dictKeys (runShareholders fetchSh symbols) = firstDedup symbols) ∧
    (∀ s ∈ symbols, alistLookup (runShareholders fetchSh symbols) s =
      some (perSymbolShareholders fetchSh s)) ∧
    (∀ s ∈ symbols,
      (∃ rs, perSymbolShareholders fetchSh s = .records rs) ∨
      (∃ msg, perSymbolShareholders fetchSh s = .err msg)) ∧
    (∃ m, (runVolume fetchV symbols start end_ interval).1 = .mapping m ∧
      dictKeys m = firstDedup symbols ∧
      (∀ s ∈ symbols, alistLookup m s =
        some (perSymbolVolume fetchV start end_ interval s)) ∧
      (∀ s ∈ symbols,
        (∃ n, perSymbolVolume fetchV start end_ interval s = .intVal n) ∨
        (∃ msg, perSymbolVolume fetchV start end_ interval s = .err msg))) := by
  refine ⟨dictKeys_runMap _ _, fun s hs => alistLookup_runMap _ _ _ hs,
    ?_, ⟨runMap (perSymbolVolume fetchV start end_ interval) symbols,
      ?_, dictKeys_runMap _ _, fun s hs => alistLookup_runMap _ _ _ hs, ?_⟩⟩
  · intro s _
    cases hf : fetchSh s with
    | exn e => exact Or.inr (by simp [perSymbolShareholders, hf])
    | nores => exact Or.inr (by simp [perSymbolShareholders, hf])
    | df d =>
      by_cases hde : d.isEmpty
      · exact Or.inr (by simp [perSymbolShareholders, hf, hde])
      · exact Or.inl (by simp [perSymbolShareholders, hf, hde])
  · simp [runVolume, hi]
  · intro s _
    cases hf : fetchV s with
    | exn e => exact Or.inr (by simp [perSymbolVolume, hf])
    | nores => exact Or.inr (by simp [perSymbolVolume, hf])
    | df d =>
      by_cases hde : d.isEmpty
      · exact Or.inr (by simp [perSymbolVolume, hf, hde])
      · by_cases hvc : "volume" ∈ d.columns
        · exact Or.inl (by simp [perSymbolVolume, hf, hde, hvc])
        · exact Or.inr (by simp [perSymbolVolume, hf, hde, hvc])

/-- Witness for C9 on symbols `["VCB", "ZZZZ", "VCB", "ERR"]`: keys are
the distinct symbols in first-occurrence order. -/
theorem result_mapping_complete_witness :
    dictKeys (runShareholders fetchMix ["VCB", "ZZZZ", "VCB", "ERR"]) =
      firstDedup ["VCB", "ZZZZ", "VCB", "ERR"] ∧
    firstDedup ["VCB", "ZZZZ", "VCB", "ERR"] = ["VCB", "ZZZZ", "ERR"] :=
  ⟨(result_mapping_complete fetchMix fetchMix ["VCB", "ZZZZ", "VCB", "ERR"]
      "2025-09-01" "2025-10-01" "1D" (by decide)).1, by decide⟩

/-- C10: in a `view_ohlcv` call with a valid requested column subset,
a symbol whose fetched frame contains none of the requested columns
(the implicitly added `time` column included) is keyed to a per-symbol
error message — not an empty record list — while every other symbol is
still processed on its own fetch; a symbol whose frame has at least one
requested column yields a record list. -/
theorem no_requested_columns_per_symbol_error
    (fetch : String → FetchR) (symbols : List String)
    (start end_ interval : String) (cs : List String) (s : String)
    (d : DataFrame)
    (hi : interval ∈ validIntervals)
    (hcs : cs ≠ [])
    (hvalid : ∀ c ∈ cs, c ∈ availableColumns)
    (hs : s ∈ symbols) (hf : fetch s = .df d) (hde : d.isEmpty = false)
    (hmiss : ∀ c ∈ (if "time" ∈ cs then cs else "time" :: cs),
      c ∉ d.columns) :
    ∃ m, (runView fetch symbols start end_ interval (some cs)).1 =
        .mapping m ∧
      alistLookup m s =
        some (.err ("Không tìm thấy cột nào trong dữ liệu cho mã " ++ s)) ∧
      (∀ s' ∈ symbols, alistLookup m s' =
        some (perSymbolView fetch start end_ interval (some cs) s')) ∧
      (∀ s' d', s' ∈ symbols → fetch s' = .df d' → d'.isEmpty = false →
        (if "time" ∈ cs then cs else "time" :: cs).filter
          (fun c => decide (c ∈ d'.columns)) ≠ [] →
        ∃ rs, alistLookup m s' = some (.records rs)) := by
  have hinv : cs.filter (fun c => decide (c ∉ availableColumns)) = [] := by
    rw [List.filter_eq_nil_iff]
    intro c hc
    simp [hvalid c hc]
  refine ⟨runMap (perSymbolView fetch start end_ interval (some cs)) symbols,
    ?_, ?_, fun s' hs' => alistLookup_runMap _ _ _ hs', ?_⟩
  · have hnx : ¬ ∃ x ∈ cs, x ∉ availableColumns := by
      rintro ⟨x, hx, hxa⟩
      exact hxa (hvalid x hx)
    simp [runView, hi, hnx]
  · rw [alistLookup_runMap _ _ _ hs]
    have havail : ((if "time" ∈ cs then cs else "time" :: cs).filter
        (fun c => decide (c ∈ d.columns))) = [] := by
      rw [List.filter_eq_nil_iff]
      intro c hc
      simp [hmiss c hc]
    simp [perSymbolView, hf, hde, hcs, havail]
  · intro s' d' hs' hf' hde' hne
    rw [alistLookup_runMap _ _ _ hs']
    have hisE : ((if "time" ∈ cs then cs else "time" :: cs).filter
        (fun c => decide (c ∈ d'.columns))).isEmpty = false := by
      rcases hne' : (if "time" ∈ cs then cs else "time" :: cs).filter
          (fun c => decide (c ∈ d'.columns)) with _ | _
      · exact absurd hne' hne
      · simp
    refine ⟨toRecords (((if "time" ∈ cs then cs else "time" :: cs).filter
        (fun c => decide (c ∈ d'.columns))).map
          (fun c => (c, d'.getCol c))), ?_⟩
    simp [perSymbolView, hf', hde', hcs, hisE]

/-- Witness for C10: `"NOCOL"` (frame without the requested columns)
gets a per-symbol message while `"VCB"` still yields records. -/
theorem no_requested_columns_per_symbol_error_witness :
    ∃ m, (runView fetchMix ["NOCOL", "VCB"] "2025-09-01" "2025-10-01" "1D"
        (some ["close"])).1 = .mapping m ∧
      alistLookup m "NOCOL" =
        some (.err ("Không tìm thấy cột nào trong dữ liệu cho mã " ++
          "NOCOL")) ∧
      (∀ s' ∈ ["NOCOL", "VCB"], alistLookup m s' =
        some (perSymbolView fetchMix "2025-09-01" "2025-10-01" "1D"
          (some ["close"]) s')) ∧
      (∀ s' d', s' ∈ ["NOCOL", "VCB"] → fetchMix s' = .df d' →
        d'.isEmpty = false →
        (if "time" ∈ ["close"] then ["close"]
         else "time" :: ["close"]).filter
          (fun c => decide (c ∈ d'.columns)) ≠ [] →
        ∃ rs, alistLookup m s' = some (.records rs)) :=
  no_requested_columns_per_symbol_error fetchMix ["NOCOL", "VCB"]
    "2025-09-01" "2025-10-01" "1D" ["close"] "NOCOL" dfNoCols (by decide)
    (by decide) (by decide) (by decide) (by decide) (by decide) (by decide)

/-- `colSum` over a cons of a present cell. -/
theorem colSum_cons_some (q : ℚ) (c : Col) :
    colSum (some q :: c) = q + colSum c := by
  simp [colSum, List.filterMap_cons]

/-- Summing a column of integer-valued cells. -/
theorem colSum_intCells (vols : List Int) :
    colSum (vols.map (fun (v : Int) => some ((v : ℚ)))) = ((vols.sum : Int) : ℚ) := by
  induction vols with
  | nil => simp [colSum]
  | cons v vs ih =>
    rw [List.map_cons, colSum_cons_some, ih, List.sum_cons]
    push_cast
    ring

/-- Python `int` of an integer-valued rational is that integer. -/
theorem pyInt_intCast (n : Int) : pyInt ((n : ℚ)) = n := by
  unfold pyInt
  have hfl : ∀ m : Int, ((m : ℚ)).floor = m := by
    intro m
    rw [Rat.floor_def']
    simp
  by_cases h : (0 : ℚ) ≤ (n : ℚ)
  · rw [if_pos h, hfl]
  · rw [if_neg h, show -(n : ℚ) = ((-n : Int) : ℚ) by push_cast; ring,
      hfl, neg_neg]

/-- C8: for a total-volume call with valid inputs, a symbol whose fetch
succeeds with a non-empty frame holding an integer-valued `volume`
column is keyed to the plain integer sum of that column — not to a
JSON-encoded string. -/
theorem total_volume_is_integer_sum
    (fetch : String → FetchR) (symbols : List String)
    (start end_ interval : String) (s : String) (d : DataFrame)
    (vols : List Int)
    (hi : interval ∈ validIntervals) (hs : s ∈ symbols)
    (hf : fetch s = .df d) (hde : d.isEmpty = false)
    (hvc : "volume" ∈ d.columns)
    (hv : d.getCol "volume" = vols.map (fun (v : Int) => some ((v : ℚ)))) :
    ∃ m, (runVolume fetch symbols start end_ interval).1 = .mapping m ∧
      alistLookup m s = some (.intVal vols.sum) := by
  refine ⟨runMap (perSymbolVolume fetch start end_ interval) symbols,
    by simp [runVolume, hi], ?_⟩
  rw [alistLookup_runMap _ _ _ hs]
  have hval : pyInt (colSum (DataFrame.getCol d "volume")) = vols.sum := by
    rw [hv, colSum_intCells, pyInt_intCast]
  simp [perSymbolVolume, hf, hde, hvc, hval]

/-- Witness for C8: volumes `[100, 200]` sum to the integer `300`. -/
theorem total_volume_is_integer_sum_witness :
    ∃ m, (runVolume fetchMix ["VCB", "ZZZZ"] "2025-09-01" "2025-10-01"
        "1D").1 = .mapping m ∧
      alistLookup m "VCB" = some (.intVal ([100, 200] : List Int).sum) :=
  total_volume_is_integer_sum fetchMix ["VCB", "ZZZZ"] "2025-09-01"
    "2025-10-01" "1D" "VCB" dfPrice [100, 200] (by decide) (by decide)
    (by decide) (by decide) (by decide) (by decide)

/-! ### Orchestrator claims -/

/-- The formatting loop equals one block per result, in order. -/
theorem formatGo_eq_blocks (rs : List AgentResult) :
    ∀ (i : Nat) (acc : String), formatGo i acc rs = acc ++ answerBlocks i rs := by
  induction rs with
  | nil =>
    intro i acc
    simp [formatGo, answerBlocks]
  | cons r rs ih =>
    intro i acc
    simp only [formatGo, answerBlocks, ih]
    simp [String.append_assoc]

/-- C5 counterexample: at an agent result carrying a structured
response, the complex branch's per-sub-query payload
(`result.get('output', str(result))`) differs from what the
`extractAnswer` procedure of the simple branch produces, and the block
handed to the Combiner carries the former. -/
theorem complex_subanswer_ne_extractAnswer :
    complexSubAnswer ⟨some "abc", .rawText "x", none⟩ ≠
      extractAnswer ⟨some "abc", .rawText "x", none⟩ ∧
    formattedResults [⟨some "abc", .rawText "x", none⟩] =
      "Kết quả 1:\n" ++
        strAgentResult ⟨some "abc", .rawText "x", none⟩ ++ "\n\n" := by
  constructor
  · decide
  · decide

/-- C5 (amended): in the complex path the Orchestrator produces each
sub-answer by taking the `output` entry of the Agent's result when
present and the raw string rendering of the whole result otherwise —
not by applying the three-shape `extractAnswer` procedure — invoking
the Agent sequentially in decomposition order, and the Combiner
receives the original query together with one
`Kết quả N:\n<payload>\n\n` block per sub-query, in sub-query order. -/
theorem complex_path_blocks
    (agentF : String → AgentResult) (combine : String → String → String)
    (query : String) (subQueries : List String) :
    processComplex agentF combine query subQueries =
      combine query (answerBlocks 1 (subQueries.map agentF)) ∧
    (∀ (i : Nat) (r : AgentResult) (rs : List AgentResult),
      answerBlocks i (r :: rs) =
        "Kết quả " ++ natStr i ++ ":\n" ++ complexSubAnswer r ++ "\n\n" ++
          answerBlocks (i + 1) rs) ∧
    (∀ r : AgentResult, r.output = none →
      complexSubAnswer r = strAgentResult r) ∧
    (∀ r o, r.output = some o → complexSubAnswer r = o) := by
  refine ⟨?_, fun i r rs => rfl, fun r h => by simp [complexSubAnswer, h],
    fun r o h => by simp [complexSubAnswer, h]⟩
  unfold processComplex formattedResults
  show combine query (formatGo 1 "" (subQueries.map agentF)) =
    combine query (answerBlocks 1 (subQueries.map agentF))
  rw [formatGo_eq_blocks]
  simp

/-- C6: on the simple path, when the agent result lacks the structured
shape, `extractAnswer` renders the parsed tabular payload when the
whole parse pipeline succeeds (symbol stamped on each row, epoch
milliseconds converted), and on any parse failure degrades to the raw
textual representation `str(result.get('output', result))` instead of
failing. -/
theorem extract_answer_graceful
    (r : AgentResult) (h : r.structuredResponse = none) :
    (∀ t, tryTable r.lastContent = some t → extractAnswer r = t) ∧
    (∀ m rows, r.lastContent = .toolMapping m → stampRows m = some rows →
      timeOk rows = true →
      extractAnswer r = renderTable (convertTimes rows)) ∧
    (tryTable r.lastContent = none →
      extractAnswer r =
        (match r.output with
         | some o => o
         | none => strAgentResult r)) := by
  refine ⟨?_, ?_, ?_⟩
  · intro t ht
    simp [extractAnswer, h, ht]
  · intro m rows hm hsr htime
    simp [extractAnswer, h, hm, tryTable, hsr, htime]
  · intro ht
    simp [extractAnswer, h, ht]

/-- Witness for C6: a payload that is not JSON falls back to the raw
rendering. -/
theorem extract_answer_graceful_witness :
    extractAnswer ⟨none, .rawText "Khung thời gian không hợp lệ", none⟩ =
      strAgentResult ⟨none, .rawText "Khung thời gian không hợp lệ", none⟩ :=
  (extract_answer_graceful ⟨none, .rawText "Khung thời gian không hợp lệ",
    none⟩ rfl).2.2 rfl

/-! ### Decimal-rendering lemmas -/

/-- The fuel recursion computes the base-10 digits once the fuel covers
the argument. -/
theorem digitsAux_eq_digits :
    ∀ (fuel n : Nat), n ≤ fuel → digitsAux fuel n = Nat.digits 10 n := by
  intro fuel
  induction fuel with
  | zero =>
    intro n hn
    interval_cases n
    simp [digitsAux]
  | succ fuel ih =>
    intro n hn
    cases n with
    | zero => simp [digitsAux]
    | succ m =>
      have hdiv : (m + 1) / 10 ≤ fuel := by
        have := Nat.div_lt_self (Nat.succ_pos m) (by norm_num : 1 < 10)
        omega
      rw [show digitsAux (fuel + 1) (m + 1) =
        (m + 1) % 10 :: digitsAux fuel ((m + 1) / 10) from rfl]
      rw [ih _ hdiv, Nat.digits_def' (by norm_num : 1 < 10) (Nat.succ_pos m)]

/-- `natStr` in terms of `Nat.digits`. -/
theorem natStr_eq_digits (n : Nat) :
    natStr n = if n = 0 then "0"
      else ⟨((Nat.digits 10 n).map Nat.digitChar).reverse⟩ := by
  unfold natStr
  rw [digitsAux_eq_digits n n le_rfl]

/-- Digit characters determine digits below the base. -/
theorem map_digitChar_inj :
    ∀ (l1 l2 : List Nat), (∀ x ∈ l1, x < 10) → (∀ x ∈ l2, x < 10) →
      l1.map Nat.digitChar = l2.map Nat.digitChar → l1 = l2 := by
  intro l1
  induction l1 with
  | nil =>
    intro l2 _ _ h
    cases l2 with
    | nil => rfl
    | cons b t => simp at h
  | cons a t ih =>
    intro l2 h1 h2 h
    cases l2 with
    | nil => simp at h
    | cons b t2 =>
      simp only [List.map_cons, List.cons.injEq] at h
      have hd : ∀ x < 10, ∀ y < 10, Nat.digitChar x = Nat.digitChar y →
          x = y := by decide
      have hab := hd a (h1 a (by simp)) b (h2 b (by simp)) h.1
      rw [hab, ih t2 (fun x hx => h1 x (by simp [hx]))
        (fun x hx => h2 x (by simp [hx])) h.2]

/-- The digit string of a non-zero number is not `"0"`. -/
theorem digitsStr_ne_zero (b : Nat) (hb : b ≠ 0)
    (h : (⟨((Nat.digits 10 b).map Nat.digitChar).reverse⟩ : String) = "0") :
    False := by
  have hd := congrArg String.data h
  simp only [] at hd
  have hmap : (Nat.digits 10 b).map Nat.digitChar = ['0'] := by
    have := congrArg List.reverse hd
    simpa using this
  cases hdig : Nat.digits 10 b with
  | nil => rw [hdig] at hmap; simp at hmap
  | cons d t =>
    rw [hdig] at hmap
    cases t with
    | cons e t2 => simp at hmap
    | nil =>
      simp only [List.map_cons, List.map_nil, List.cons.injEq] at hmap
      have hd10 : d < 10 :=
        Nat.digits_lt_base (by norm_num) (by rw [hdig]; simp)
      have hzero : d = 0 := by
        have hinj : ∀ x < 10, Nat.digitChar x = '0' → x = 0 := by decide
        exact hinj d hd10 hmap.1
      have hb' := Nat.ofDigits_digits 10 b
      rw [hdig, hzero] at hb'
      simp [Nat.ofDigits] at hb'
      exact hb hb'.symm

/-- `natStr` is injective. -/
theorem natStr_inj {a b : Nat} (h : natStr a = natStr b) : a = b := by
  rw [natStr_eq_digits, natStr_eq_digits] at h
  by_cases h0 : a = 0 <;> by_cases h1 : b = 0
  · rw [h0, h1]
  · rw [if_pos h0, if_neg h1] at h
    exact absurd h.symm (fun hh => digitsStr_ne_zero b h1 hh)
  · rw [if_neg h0, if_pos h1] at h
    exact absurd h (fun hh => digitsStr_ne_zero a h0 hh)
  · rw [if_neg h0, if_neg h1] at h
    have hd := congrArg String.data h
    simp only [] at hd
    have hrev := congrArg List.reverse hd
    simp only [List.reverse_reverse] at hrev
    have hdig := map_digitChar_inj _ _
      (fun x hx => Nat.digits_lt_base (by norm_num) hx)
      (fun x hx => Nat.digits_lt_base (by norm_num) hx) hrev
    have := congrArg (Nat.ofDigits 10) hdig
    rwa [Nat.ofDigits_digits, Nat.ofDigits_digits] at this

/-- No decimal digit renders as a minus sign. -/
theorem natStr_no_dash (n : Nat) : ∀ c ∈ (natStr n).data, c ≠ '-' := by
  rw [natStr_eq_digits]
  by_cases h0 : n = 0
  · rw [if_pos h0]
    intro c hc
    simp only [show ("0" : String).data = ['0'] from rfl] at hc
    simp at hc
    rw [hc]
    decide
  · rw [if_neg h0]
    intro c hc
    simp only [List.mem_reverse, List.mem_map] at hc
    rcases hc with ⟨d, hd, hdc⟩
    have hd10 : d < 10 := Nat.digits_lt_base (by norm_num) hd
    have : ∀ x < 10, Nat.digitChar x ≠ '-' := by decide
    rw [← hdc]
    exact this d hd10

/-- `intStr` is injective. -/
theorem intStr_inj {p q : Int} (h : intStr p = intStr q) : p = q := by
  cases p with
  | ofNat a =>
    cases q with
    | ofNat b => exact congrArg Int.ofNat (natStr_inj h)
    | negSucc b =>
      exfalso
      have hd := congrArg String.data h
      rw [show intStr (Int.ofNat a) = natStr a from rfl,
        show intStr (Int.negSucc b) = "-" ++ natStr (b + 1) from rfl,
        String.data_append] at hd
      have hdash : '-' ∈ (natStr a).data := by
        rw [hd]
        simp [show ("-" : String).data = ['-'] from rfl]
      exact natStr_no_dash a '-' hdash rfl
  | negSucc a =>
    cases q with
    | ofNat b =>
      exfalso
      have hd := congrArg String.data h
      rw [show intStr (Int.negSucc a) = "-" ++ natStr (a + 1) from rfl,
        show intStr (Int.ofNat b) = natStr b from rfl,
        String.data_append] at hd
      have hdash : '-' ∈ (natStr b).data := by
        rw [← hd]
        simp [show ("-" : String).data = ['-'] from rfl]
      exact natStr_no_dash b '-' hdash rfl
    | negSucc b =>
      have hd := congrArg String.data h
      rw [show intStr (Int.negSucc a) = "-" ++ natStr (a + 1) from rfl,
        show intStr (Int.negSucc b) = "-" ++ natStr (b + 1) from rfl,
        String.data_append, String.data_append] at hd
      have h2 : (natStr (a + 1)).data = (natStr (b + 1)).data := by
        simpa using hd
      have h3 := natStr_inj (String.ext h2)
      have : a = b := by omega
      rw [this]

/-- Distinct periods give distinct SMA column names. -/
theorem smaName_inj {p q : Int}
    (h : "SMA_" ++ intStr p = "SMA_" ++ intStr q) : p = q := by
  have hd := congrArg String.data h
  rw [String.data_append, String.data_append] at hd
  exact intStr_inj (String.ext (List.append_cancel_left hd))

/-- No SMA column name collides with the close column. -/
theorem smaName_ne_close (p : Int) : ("SMA_" ++ intStr p) ≠ "close" := by
  intro h
  have hd := congrArg String.data h
  rw [String.data_append] at hd
  rw [show ("SMA_" : String).data = ['S', 'M', 'A', '_'] from rfl,
    show ("close" : String).data = ['c', 'l', 'o', 's', 'e'] from rfl] at hd
  simp only [List.cons_append, List.cons.injEq] at hd
  exact absurd hd.1 (by decide)

/-! ### DataFrame lemmas -/

theorem getCol_setCol_self (df : DataFrame) (name : String) (c : Col) :
    (df.setCol name c).getCol name = c := by
  induction df with
  | nil => simp [DataFrame.setCol, DataFrame.getCol]
  | cons p df ih =>
    by_cases hp : p.1 = name
    · simp [DataFrame.setCol, DataFrame.getCol, hp]
    · simp [DataFrame.setCol, DataFrame.getCol, hp, ih]

theorem getCol_setCol_ne (df : DataFrame) (name m : String) (c : Col)
    (h : m ≠ name) : (df.setCol name c).getCol m = df.getCol m := by
  induction df with
  | nil => simp [DataFrame.setCol, DataFrame.getCol, Ne.symm h]
  | cons p df ih =>
    by_cases hp : p.1 = name
    · simp [DataFrame.setCol, DataFrame.getCol, hp, Ne.symm h]
    · by_cases hm : p.1 = m
      · simp [DataFrame.setCol, DataFrame.getCol, hp, hm, h]
      · simp [DataFrame.setCol, DataFrame.getCol, hp, hm, ih]

theorem mem_columns_setCol_self (df : DataFrame) (name : String) (c : Col) :
    name ∈ (df.setCol name c).columns := by
  induction df with
  | nil => simp [DataFrame.setCol, DataFrame.columns]
  | cons p df ih =>
    by_cases hp : p.1 = name
    · simp [DataFrame.setCol, DataFrame.columns, hp]
    · simp only [DataFrame.setCol, if_neg hp]
      simp only [DataFrame.columns, List.map_cons, List.mem_cons]
      exact Or.inr ih

theorem mem_columns_setCol_of_mem (df : DataFrame) (name m : String)
    (c : Col) (h : m ∈ df.columns) : m ∈ (df.setCol name c).columns := by
  induction df with
  | nil => simp [DataFrame.columns] at h
  | cons p df ih =>
    by_cases hp : p.1 = name
    · simp only [DataFrame.setCol, if_pos hp]
      simp only [DataFrame.columns, List.map_cons, List.mem_cons] at h ⊢
      rcases h with h | h
      · rw [← hp]
        exact Or.inl h
      · exact Or.inr h
    · simp only [DataFrame.setCol, if_neg hp]
      simp only [DataFrame.columns, List.map_cons, List.mem_cons] at h ⊢
      rcases h with h | h
      · exact Or.inl h
      · exact Or.inr (ih h)

theorem wf_setCol (df : DataFrame) (name : String) (c : Col) (n : Nat)
    (hwf : df.wf n) (hc : c.length = n) : (df.setCol name c).wf n := by
  induction df with
  | nil =>
    intro p hp
    simp [DataFrame.setCol] at hp
    rw [hp]
    exact hc
  | cons q df ih =>
    by_cases hq : q.1 = name
    · intro p hp
      simp only [DataFrame.setCol, if_pos hq, List.mem_cons] at hp
      rcases hp with hp | hp
      · rw [hp]
        exact hc
      · exact hwf p (List.mem_cons_of_mem _ hp)
    · intro p hp
      simp only [DataFrame.setCol, if_neg hq, List.mem_cons] at hp
      rcases hp with hp | hp
      · rw [hp]
        exact hwf q (List.mem_cons_self _ _)
      · exact ih (fun r hr => hwf r (List.mem_cons_of_mem _ hr)) p hp

theorem getCol_length_of_wf (df : DataFrame) (m : String) (n : Nat)
    (hm : m ∈ df.columns) (hwf : df.wf n) : (df.getCol m).length = n := by
  induction df with
  | nil => simp [DataFrame.columns] at hm
  | cons p df ih =>
    by_cases hp : p.1 = m
    · simp only [DataFrame.getCol, if_pos hp]
      exact hwf p (List.mem_cons_self _ _)
    · simp only [DataFrame.getCol, if_neg hp]
      simp only [DataFrame.columns, List.map_cons, List.mem_cons] at hm
      rcases hm with hm | hm
      · exact absurd hm.symm hp
      · exact ih hm (fun r hr => hwf r (List.mem_cons_of_mem _ hr))

theorem nRows_of_wf (df : DataFrame) (n : Nat) (hne : df ≠ [])
    (hwf : df.wf n) : df.nRows = n := by
  cases df with
  | nil => exact absurd rfl hne
  | cons p df => exact hwf p (List.mem_cons_self _ _)

theorem ne_nil_of_mem_columns (df : DataFrame) (m : String)
    (hm : m ∈ df.columns) : df ≠ [] := by
  intro h
  rw [h] at hm
  simp [DataFrame.columns] at hm

/-! ### SMA computation lemmas -/

theorem length_taSMA (close : Col) (p : Nat) :
    (taSMA close p).length = close.length := by
  simp [taSMA]

theorem length_roundCol (c : Col) : (roundCol c).length = c.length := by
  simp [roundCol]

theorem getCol_smaStep_close (df : DataFrame) (p : Int) :
    (smaStep df p).getCol "close" = df.getCol "close" := by
  unfold smaStep
  rw [getCol_setCol_ne _ _ _ _ (Ne.symm (smaName_ne_close p)),
    getCol_setCol_ne _ _ _ _ (Ne.symm (smaName_ne_close p))]

theorem getCol_smaStep_self (df : DataFrame) (p : Int) :
    (smaStep df p).getCol ("SMA_" ++ intStr p) =
      roundCol (taSMA (df.getCol "close") p.toNat) := by
  unfold smaStep
  rw [getCol_setCol_self, getCol_setCol_self]

theorem getCol_smaStep_other (df : DataFrame) (q : Int) (name : String)
    (h : name ≠ "SMA_" ++ intStr q) :
    (smaStep df q).getCol name = df.getCol name := by
  unfold smaStep
  rw [getCol_setCol_ne _ _ _ _ h, getCol_setCol_ne _ _ _ _ h]

theorem applySMAs_close (d : DataFrame) (ps : List Int) :
    (applySMAs d ps).getCol "close" = d.getCol "close" := by
  induction ps generalizing d with
  | nil => rfl
  | cons q rest ih =>
    show (applySMAs (smaStep d q) rest).getCol "close" = d.getCol "close"
    rw [ih, getCol_smaStep_close]

theorem getCol_applySMAs_notin (d : DataFrame) (ps : List Int)
    (name : String) (h : ∀ r ∈ ps, "SMA_" ++ intStr r ≠ name) :
    (applySMAs d ps).getCol name = d.getCol name := by
  induction ps generalizing d with
  | nil => rfl
  | cons q rest ih =>
    show (applySMAs (smaStep d q) rest).getCol name = d.getCol name
    rw [ih _ (fun r hr => h r (List.mem_cons_of_mem _ hr)),
      getCol_smaStep_other _ _ _
        (fun hh => h q (List.mem_cons_self _ _) hh.symm)]

theorem getCol_applySMAs_mem (d : DataFrame) (ps : List Int) (p : Int)
    (hp : p ∈ ps) :
    (applySMAs d ps).getCol ("SMA_" ++ intStr p) =
      roundCol (taSMA (d.getCol "close") p.toNat) := by
  induction ps generalizing d with
  | nil => cases hp
  | cons q rest ih =>
    show (applySMAs (smaStep d q) rest).getCol ("SMA_" ++ intStr p) =
      roundCol (taSMA (d.getCol "close") p.toNat)
    by_cases hpr : p ∈ rest
    · rw [ih _ hpr, getCol_smaStep_close]
    · have hpq : p = q := (List.mem_cons.mp hp).resolve_right hpr
      subst hpq
      rw [getCol_applySMAs_notin _ _ _
        (fun r hr heq => hpr (by rw [← smaName_inj heq]; exact hr)),
        getCol_smaStep_self]

theorem wf_smaStep (df : DataFrame) (p : Int) (n : Nat) (hwf : df.wf n)
    (hcl : "close" ∈ df.columns) : (smaStep df p).wf n := by
  unfold smaStep
  have h1 : (taSMA (df.getCol "close") p.toNat).length = n := by
    rw [length_taSMA, getCol_length_of_wf _ _ _ hcl hwf]
  refine wf_setCol _ _ _ _ (wf_setCol _ _ _ _ hwf h1) ?_
  rw [length_roundCol, getCol_setCol_self, h1]

theorem mem_columns_smaStep_of_mem (df : DataFrame) (p : Int) (m : String)
    (hm : m ∈ df.columns) : m ∈ (smaStep df p).columns := by
  unfold smaStep
  exact mem_columns_setCol_of_mem _ _ _ _ (mem_columns_setCol_of_mem _ _ _ _ hm)

theorem applySMAs_inv (d : DataFrame) (ps : List Int) (n : Nat)
    (hwf : d.wf n) (hcl : "close" ∈ d.columns) :
    (applySMAs d ps).wf n ∧ "close" ∈ (applySMAs d ps).columns := by
  induction ps generalizing d with
  | nil => exact ⟨hwf, hcl⟩
  | cons q rest ih =>
    exact ih (smaStep d q) (wf_smaStep _ _ _ hwf hcl)
      (mem_columns_smaStep_of_mem _ _ _ hcl)

theorem mem_columns_applySMAs_of_mem (d : DataFrame) (ps : List Int)
    (m : String) (hm : m ∈ d.columns) : m ∈ (applySMAs d ps).columns := by
  induction ps generalizing d with
  | nil => exact hm
  | cons q rest ih => exact ih _ (mem_columns_smaStep_of_mem _ _ _ hm)

theorem mem_columns_applySMAs (d : DataFrame) (ps : List Int) (p : Int)
    (hp : p ∈ ps) : ("SMA_" ++ intStr p) ∈ (applySMAs d ps).columns := by
  induction ps generalizing d with
  | nil => cases hp
  | cons q rest ih =>
    by_cases hpr : p ∈ rest
    · exact ih _ hpr
    · have hpq : p = q := (List.mem_cons.mp hp).resolve_right hpr
      subst hpq
      show ("SMA_" ++ intStr p) ∈ (applySMAs (smaStep d p) rest).columns
      refine mem_columns_applySMAs_of_mem _ _ _ ?_
      unfold smaStep
      exact mem_columns_setCol_self _ _ _

theorem allSome_map_some (l : List ℚ) : allSome (l.map some) = some l := by
  induction l with
  | nil => rfl
  | cons q t ih => simp [allSome, ih]

theorem getD_roundCol (c : Col) (i : Nat) :
    (roundCol c).getD i none = Option.map round2 (c.getD i none) := by
  induction c generalizing i with
  | nil => cases i <;> rfl
  | cons x t ih =>
    cases i with
    | zero => cases x <;> rfl
    | succ j => exact ih j

theorem taSMA_entry_lt (close : Col) (p : Nat) (i : Nat)
    (h : i + 1 < p) : (taSMA close p).getD i none = none := by
  by_cases hi : i < close.length
  · unfold taSMA
    rw [List.getD_eq_getElem?_getD, List.getElem?_map,
      List.getElem?_range hi]
    simp [h]
  · rw [List.getD_eq_getElem?_getD, List.getElem?_eq_none]
    · rfl
    · rw [length_taSMA]
      omega

theorem taSMA_entry_ge (closes : List ℚ) (p : Nat) (i : Nat)
    (hp : 0 < p) (hge : p ≤ i + 1) (hi : i < closes.length) :
    (taSMA (closes.map some) p).getD i none =
      some (((closes.drop (i + 1 - p)).take p).sum / (p : ℚ)) := by
  unfold taSMA
  have hi' : i < (closes.map some).length := by simpa using hi
  rw [List.getD_eq_getElem?_getD, List.getElem?_map, List.getElem?_range hi']
  have hnot : ¬ (i + 1 < p) := by omega
  simp only [Option.map_some', Option.getD_some, hnot, if_false]
  rw [← List.map_drop, ← List.map_take, winMean, allSome_map_some]
  have hlen : ((closes.drop (i + 1 - p)).take p).length = p := by
    rw [List.length_take, List.length_drop]
    omega
  show some ((((closes.drop (i + 1 - p)).take p)).sum /
    ((((closes.drop (i + 1 - p)).take p)).length : ℚ)) = _
  rw [hlen]

/-- C1: for valid periods `p ≥ 1` and a fetched series whose close
column holds `n ≥ p` prices, the SMA tool call keeps the mapping entry
of the symbol as a record list with exactly `n` entries and adds, for
each requested period `p`, an independently named column `SMA_p` whose
entry at index `i` is null for `i < p − 1` and, for `i ≥ p − 1`, the
arithmetic mean of the closes at indices `i − p + 1 .. i` rounded to 2
decimal places. -/
theorem sma_adds_rounded_mean_columns
    (fetch : String → FetchR) (symbols : List String)
    (start end_ interval : String) (periods : List Int) (p : Int)
    (s : String) (d : DataFrame) (closes : List ℚ) (n : Nat)
    (hi : interval ∈ validIntervals)
    (hpos : ∀ q ∈ periods, 1 ≤ q)
    (hp : p ∈ periods) (hs : s ∈ symbols)
    (hf : fetch s = .df d)
    (hwf : d.wf n)
    (hcl : "close" ∈ d.columns)
    (hclose : d.getCol "close" = closes.map some)
    (hn : closes.length = n)
    (hnp : p.toNat ≤ n) :
    ∃ m, (runSMA fetch symbols start end_ interval periods).1 =
        .mapping m ∧
      alistLookup m s = some (.records (toRecords (applySMAs d periods))) ∧
      (toRecords (applySMAs d periods)).length = n ∧
      ("SMA_" ++ intStr p) ∈ (applySMAs d periods).columns ∧
      ((applySMAs d periods).getCol ("SMA_" ++ intStr p)).length = n ∧
      (∀ i : Nat, i + 1 < p.toNat →
        ((applySMAs d periods).getCol ("SMA_" ++ intStr p)).getD i none =
          none) ∧
      (∀ i : Nat, p.toNat ≤ i + 1 → i < n →
        ((applySMAs d periods).getCol ("SMA_" ++ intStr p)).getD i none =
          some (round2
            (((closes.drop (i + 1 - p.toNat)).take p.toNat).sum /
              (p.toNat : ℚ)))) := by
  have hp1 : 1 ≤ p := hpos p hp
  have hptn : 0 < p.toNat := by omega
  have hdn : d ≠ [] := ne_nil_of_mem_columns d "close" hcl
  have hnr : d.nRows = n := nRows_of_wf d n hdn hwf
  have hn0 : n ≠ 0 := by omega
  have hde : d.isEmpty = false := by
    have h1 : d.columns ≠ [] := List.ne_nil_of_mem hcl
    simp [DataFrame.isEmpty, hnr, h1, hn0]
  have hfind : periods.find? (fun q => decide (q ≤ 0)) = none := by
    rw [List.find?_eq_none]
    intro q hq
    simp only [decide_eq_true_eq]
    have := hpos q hq
    omega
  have hrun : (runSMA fetch symbols start end_ interval periods).1 =
      .mapping (runMap (perSymbolSMA fetch start end_ interval periods)
        symbols) := by
    simp [runSMA, hi, hfind]
  have hcol : (applySMAs d periods).getCol ("SMA_" ++ intStr p) =
      roundCol (taSMA (closes.map some) p.toNat) := by
    rw [getCol_applySMAs_mem d periods p hp, hclose]
  have hinv := applySMAs_inv d periods n hwf hcl
  have hadn : applySMAs d periods ≠ [] :=
    ne_nil_of_mem_columns _ "close" hinv.2
  have hanr : (applySMAs d periods).nRows = n := nRows_of_wf _ n hadn hinv.1
  refine ⟨runMap (perSymbolSMA fetch start end_ interval periods) symbols,
    hrun, ?_, ?_, mem_columns_applySMAs d periods p hp, ?_, ?_, ?_⟩
  · rw [alistLookup_runMap _ _ _ hs]
    simp [perSymbolSMA, hf, hde, hcl]
  · simp [toRecords, hanr]
  · rw [hcol, length_roundCol, length_taSMA, List.length_map, hn]
  · intro i hilt
    rw [hcol, getD_roundCol, taSMA_entry_lt _ _ _ hilt]
    rfl
  · intro i hge hiln
    rw [hcol, getD_roundCol,
      taSMA_entry_ge closes p.toNat i hptn hge (by omega)]
    rfl

/-- Witness for C1: periods `[2, 20]` on a two-bar series; the `SMA_2`
column is null at index 0 and the rounded two-bar mean at index 1. -/
theorem sma_adds_rounded_mean_columns_witness :
    ∃ m, (runSMA fetchMix ["VCB", "ZZZZ"] "2025-09-01" "2025-10-01" "1D"
        [2, 20]).1 = .mapping m ∧
      alistLookup m "VCB" =
        some (.records (toRecords (applySMAs dfPrice [2, 20]))) ∧
      (toRecords (applySMAs dfPrice [2, 20])).length = 2 ∧
      ("SMA_" ++ intStr 2) ∈ (applySMAs dfPrice [2, 20]).columns ∧
      ((applySMAs dfPrice [2, 20]).getCol ("SMA_" ++ intStr 2)).length = 2 ∧
      (∀ i : Nat, i + 1 < (2 : Int).toNat →
        ((applySMAs dfPrice [2, 20]).getCol
          ("SMA_" ++ intStr 2)).getD i none = none) ∧
      (∀ i : Nat, (2 : Int).toNat ≤ i + 1 → i < 2 →
        ((applySMAs dfPrice [2, 20]).getCol
          ("SMA_" ++ intStr 2)).getD i none =
          some (round2
            (((([25, 26] : List ℚ).drop (i + 1 - (2 : Int).toNat)).take
              (2 : Int).toNat).sum / ((2 : Int).toNat : ℚ)))) :=
  sma_adds_rounded_mean_columns fetchMix ["VCB", "ZZZZ"] "2025-09-01"
    "2025-10-01" "1D" [2, 20] 2 "VCB" dfPrice [25, 26] 2 (by decide)
    (by decide) (by decide) (by decide) (by decide)
    (by unfold DataFrame.wf; decide) (by decide)
    (by decide) (by decide) (by decide)
